import Mathlib

/-!
Verification of the defconQt glyph line-view / glyph-view layout and kerning
logic (src/Lib/defconQt/controls/glyphLineView.py and glyphView.py), as a
shallow embedding in Lean.  Numeric quantities (font units, scales, pixel
coordinates) are modelled as rationals; Python dictionaries are modelled as
association lists; Python object identity is modelled by structural equality
on object structures carrying a numeric id.
-/

/-- A Python value as it can appear in the drawing-attribute dictionaries:
None, a boolean, or a string (layer names travel through these dictionaries
because of the scroll-area wrapper's argument transposition). -/
inductive PyVal where
  | none : PyVal
  | bool : Bool → PyVal
  | str : String → PyVal
deriving DecidableEq

/-- A font object: an identity plus the `font.info` metric fields the widgets
read (each may be Python None, hence Option). -/
structure FontObj where
  fid : Nat
  unitsPerEm : Option ℚ
  descender : Option ℚ
  ascender : Option ℚ
  capHeight : Option ℚ
deriving DecidableEq

/-- A glyph object: an identity, a name, and its owning font (glyph.font,
possibly None). -/
structure GlyphObj where
  gid : Nat
  name : String
  font : Option FontObj
deriving DecidableEq

/-- The GlyphRecord data structure of glyphLineView.py: one glyph instance
with its positioning data. -/
structure GlyphRecord where
  glyph : GlyphObj
  xPlacement : ℚ := 0
  yPlacement : ℚ := 0
  xAdvance : ℚ := 0
  yAdvance : ℚ := 0
  advanceWidth : ℚ := 0
  advanceHeight : ℚ := 0
  alternates : List GlyphObj := []
deriving DecidableEq

/-! ### Kerning resolver (GlyphLineView._lookupKerningValue) -/

/-- Python str.startswith, modelled over the character lists so that it is
kernel-reducible. -/
def strStartsWith (s pfx : String) : Bool := pfx.data.isPrefixOf s.data

/-- The first-position kerning group marker tested by the source
(first.startswith("public.kern1")). -/
def kern1Pfx : String := "public.kern1"

/-- The second-position kerning group marker tested by the source. -/
def kern2Pfx : String := "public.kern2"

/-- Dictionary lookup in the font's flat kerning mapping
(pair of names -> value). -/
def dictGet : List ((String × String) × ℚ) → String × String → Option ℚ
  | [], _ => none
  | e :: rest, p => if e.1 = p then some e.2 else dictGet rest p

/-- The groups scan of the source: walk the group mapping in order and return
the first group whose name starts with the marker and contains the glyph. -/
def findGroupFor : List (String × List String) → String → String → Option String
  | [], _, _ => none
  | e :: rest, pfx, glyphName =>
    if strStartsWith e.1 pfx ∧ glyphName ∈ e.2 then some e.1
    else findGroupFor rest pfx glyphName

/-- Membership test of a possibly-None pair in the kerning dictionary: a pair
with a None component never matches (kerning keys are real name pairs). -/
def optGet (kerning : List ((String × String) × ℚ)) :
    Option String × Option String → Option ℚ
  | (some a, some b) => dictGet kerning (a, b)
  | _ => none

/-- The source's final loop: look the candidate pairs up in order and return
the first match. -/
def firstMatch (kerning : List ((String × String) × ℚ)) :
    List (Option String × Option String) → Option ℚ
  | [] => none
  | p :: ps =>
    match optGet kerning p with
    | some v => some v
    | none => firstMatch kerning ps

/-- The source's first-position group resolution (lines 807-815): the name
itself when it carries the marker, otherwise the first group with the marker
containing the glyph. -/
def firstGroupOf (groups : List (String × List String)) (first : String) :
    Option String :=
  if strStartsWith first kern1Pfx then some first
  else findGroupFor groups kern1Pfx first

/-- The source's second-position group resolution (lines 816-824). -/
def secondGroupOf (groups : List (String × List String)) (second : String) :
    Option String :=
  if strStartsWith second kern2Pfx then some second
  else findGroupFor groups kern2Pfx second

/-- The name left in the glyph slot of the first position: the source sets
first = None when the name is itself a first-position group name. -/
def firstGlyphOf (first : String) : Option String :=
  if strStartsWith first kern1Pfx then none else some first

/-- The name left in the glyph slot of the second position. -/
def secondGlyphOf (second : String) : Option String :=
  if strStartsWith second kern2Pfx then none else some second

/-- GlyphLineView._lookupKerningValue: quick exact-pair check, then group
resolution for both positions (a name already carrying the marker is used as
the group directly and the glyph slot becomes None), then the four-pair
precedence scan, defaulting to 0. -/
def lookupKerningValue (kerning : List ((String × String) × ℚ))
    (groups : List (String × List String)) (first second : String) : ℚ :=
  match dictGet kerning (first, second) with
  | some v => v
  | none =>
    match firstMatch kerning
      [(firstGlyphOf first, secondGlyphOf second),
       (firstGlyphOf first, secondGroupOf groups second),
       (firstGroupOf groups first, secondGlyphOf second),
       (firstGroupOf groups first, secondGroupOf groups second)] with
    | some v => v
    | none => 0

/-- The four precedence levels of the spec, in order: exact pair,
glyph/second-group, first-group/glyph, first-group/second-group. -/
def precedenceLevels (groups : List (String × List String))
    (first second : String) : List (Option String × Option String) :=
  [(some first, some second),
   (firstGlyphOf first, secondGroupOf groups second),
   (firstGroupOf groups first, secondGlyphOf second),
   (firstGroupOf groups first, secondGroupOf groups second)]

/-- Helper: a candidate pair that does not match is skipped by the scan. -/
theorem firstMatch_cons_none (kerning : List ((String × String) × ℚ))
    (p : Option String × Option String)
    (ps : List (Option String × Option String))
    (hp : optGet kerning p = none) :
    firstMatch kerning (p :: ps) = firstMatch kerning ps := by
  simp [firstMatch, hp]

/-- Helper: the resolver agrees with the first match over the four
spec-described precedence levels, with default 0. -/
theorem lookupKerningValue_eq_levels
    (kerning : List ((String × String) × ℚ))
    (groups : List (String × List String)) (first second : String) :
    lookupKerningValue kerning groups first second =
      (firstMatch kerning (precedenceLevels groups first second)).getD 0 := by
  rcases h : dictGet kerning (first, second) with _ | v
  · have hskip1 : ∀ L, firstMatch kerning ((some first, some second) :: L) =
        firstMatch kerning L := by
      intro L
      exact firstMatch_cons_none kerning _ L (by simp [optGet, h])
    have hskip2 : ∀ L,
        firstMatch kerning ((firstGlyphOf first, secondGlyphOf second) :: L) =
          firstMatch kerning L := by
      intro L
      apply firstMatch_cons_none
      unfold firstGlyphOf secondGlyphOf
      by_cases hf : strStartsWith first kern1Pfx <;>
        by_cases hs : strStartsWith second kern2Pfx <;>
          simp [hf, hs, optGet, h]
    simp only [lookupKerningValue, precedenceLevels, h, hskip1, hskip2]
    rcases firstMatch kerning
      [(firstGlyphOf first, secondGroupOf groups second),
       (firstGroupOf groups first, secondGlyphOf second),
       (firstGroupOf groups first, secondGroupOf groups second)] with _ | w <;>
      simp
  · simp [lookupKerningValue, precedenceLevels, firstMatch, optGet, h]

/-- Claim C1: for every kerning mapping, group mapping and ordered pair of
glyph names, the resolver returns the first matching value in the precedence
order exact pair, glyph/second-group, first-group/glyph,
first-group/second-group (group resolution per the kerning markers, a name
already carrying the marker standing for the group itself), and 0 when no
level matches. -/
theorem claim_C1_kerning_precedence
    (kerning : List ((String × String) × ℚ))
    (groups : List (String × List String)) (first second : String) :
    lookupKerningValue kerning groups first second =
      (firstMatch kerning (precedenceLevels groups first second)).getD 0 :=
  lookupKerningValue_eq_levels kerning groups first second

/-! ### Drawing attributes (GlyphLineWidget / GlyphWidget drawingAttribute,
setDrawingAttribute, and the GlyphLineView scroll-area wrapper).  The widget
dictionaries are keyed by attribute strings; the per-layer table is keyed by
the layerName argument, which is normally a string or None but, because of
the wrapper transposition, can be any Python value - hence PyVal keys. -/

/-- Python dict.get(attr) on an attribute dictionary: None when missing. -/
def attrGet : List (String × PyVal) → String → PyVal
  | [], _ => .none
  | e :: rest, k => if e.1 = k then e.2 else attrGet rest k

/-- Python d[attr] = value on an attribute dictionary. -/
def attrSet : List (String × PyVal) → String → PyVal → List (String × PyVal)
  | [], k, v => [(k, v)]
  | e :: rest, k, v => if e.1 = k then (k, v) :: rest else e :: attrSet rest k v

/-- Python dict.get(layerName, {}) on the per-layer table. -/
def layersGet : List (PyVal × List (String × PyVal)) → PyVal → List (String × PyVal)
  | [], _ => []
  | e :: rest, k => if e.1 = k then e.2 else layersGet rest k

/-- Python d[layerName] = entry on the per-layer table. -/
def layersSet : List (PyVal × List (String × PyVal)) → PyVal →
    List (String × PyVal) → List (PyVal × List (String × PyVal))
  | [], k, v => [(k, v)]
  | e :: rest, k, v => if e.1 = k then (k, v) :: rest else e :: layersSet rest k v

/-- The two attribute dictionaries held by a glyph widget:
_fallbackDrawingAttributes and _layerDrawingAttributes. -/
structure DrawingAttrState where
  fallback : List (String × PyVal)
  layerAttrs : List (PyVal × List (String × PyVal))
deriving DecidableEq

/-- GlyphLineWidget.drawingAttribute (identical code in
GlyphWidget.drawingAttribute): fallback dictionary when layerName is None,
else the layer's own dictionary with dict.get semantics. -/
def drawingAttribute (st : DrawingAttrState) (attr : String)
    (layerName : PyVal) : PyVal :=
  if layerName = .none then attrGet st.fallback attr
  else attrGet (layersGet st.layerAttrs layerName) attr

/-- GlyphLineWidget.setDrawingAttribute (identical code in
GlyphWidget.setDrawingAttribute). -/
def setDrawingAttribute (st : DrawingAttrState) (attr : String)
    (value : PyVal) (layerName : PyVal) : DrawingAttrState :=
  if layerName = .none then
    { st with fallback := attrSet st.fallback attr value }
  else
    { st with layerAttrs := (layersSet st.layerAttrs layerName
        (attrSet (layersGet st.layerAttrs layerName) attr value)) }

/-- GlyphLineView.setDrawingAttribute (the scroll-area wrapper, line 953-954):
it forwards to the widget with the last two arguments transposed. -/
def viewSetDrawingAttribute (st : DrawingAttrState) (attr : String)
    (value : PyVal) (layerName : PyVal) : DrawingAttrState :=
  setDrawingAttribute st attr layerName value

/-- A widget state for the counterexamples: the fallback holds
showGlyphFill=True and layer L has an (empty) per-layer dictionary. -/
def stC2 : DrawingAttrState :=
  { fallback := [("showGlyphFill", .bool true)], layerAttrs := [(.str "L", [])] }

/-- Counterexample to claim C2: layer L has a per-layer dictionary,
showGlyphFill is absent from it, and the lookup returns None (an absent
value) while the fallback's current value for that attribute is True - the
missing layer entry does not fall through to the fallback. -/
theorem claim_C2_counterexample :
    drawingAttribute stC2 "showGlyphFill" (.str "L") = .none ∧
    drawingAttribute stC2 "showGlyphFill" .none = .bool true ∧
    PyVal.none ≠ PyVal.bool true := by
  refine ⟨by decide, by decide, by decide⟩

/-- Claim C2 (amended): looking an attribute up with layerName None reads the
fallback dictionary's current value; for a named layer the lookup reads only
that layer's dictionary, so an attribute absent there resolves to None (an
absent value), never to the fallback; and setting an attribute for a named
layer leaves the fallback dictionary untouched. -/
theorem claim_C2_attr_resolution (st : DrawingAttrState) (attr : String)
    (layerName : PyVal) (value : PyVal) (h : layerName ≠ .none) :
    drawingAttribute st attr .none = attrGet st.fallback attr ∧
    (attrGet (layersGet st.layerAttrs layerName) attr = .none →
      drawingAttribute st attr layerName = .none) ∧
    (setDrawingAttribute st attr value layerName).fallback = st.fallback := by
  refine ⟨rfl, ?_, ?_⟩
  · intro habs
    simp [drawingAttribute, h, habs]
  · simp [setDrawingAttribute, h]

/-- Witness for claim C2's amended theorem at a concrete state. -/
theorem claim_C2_witness :
    drawingAttribute stC2 "showGlyphFill" .none =
        attrGet stC2.fallback "showGlyphFill" ∧
    drawingAttribute stC2 "showGlyphFill" (.str "L") = .none ∧
    (setDrawingAttribute stC2 "showGlyphFill" (.bool false) (.str "L")).fallback
      = stC2.fallback := by
  have h := claim_C2_attr_resolution stC2 "showGlyphFill" (.str "L")
    (.bool false) (by decide)
  exact ⟨h.1, h.2.1 (by decide), h.2.2⟩

/-- An initial widget state with the attribute dictionaries of the
glyph-line widget counterexamples for claim C10. -/
def stC10 : DrawingAttrState :=
  { fallback := [("showGlyphFill", .bool true)], layerAttrs := [] }

/-- An empty widget state. -/
def stEmpty : DrawingAttrState := { fallback := [], layerAttrs := [] }

/-- Counterexample to claim C10's final clause: calling the wrapper with
value None and layerName None reaches the widget with a None layerName, so
the fallback entry for the attribute is overwritten with None - the wrapper
invoked with layerName None can modify the fallback dictionary. -/
theorem claim_C10_counterexample :
    (viewSetDrawingAttribute stC10 "showGlyphFill" .none .none).fallback ≠
      stC10.fallback := by
  decide

/-- Claim C10 (amended): the scroll-area wrapper forwards its arguments to
the widget in transposed order (the widget receives layerName in its value
position and value in its layerName position), which is not observationally
equivalent to calling the widget directly - witnessed at a concrete input -
and a wrapper call with layerName None and a value other than None never
modifies the fallback dictionary (with value None the wrapper does write
None into the fallback entry). -/
theorem claim_C10_transposed_forwarding :
    (∀ (st : DrawingAttrState) (attr : String) (value layerName : PyVal),
      viewSetDrawingAttribute st attr value layerName =
        setDrawingAttribute st attr layerName value) ∧
    viewSetDrawingAttribute stEmpty "a" (.bool true) (.str "L") ≠
      setDrawingAttribute stEmpty "a" (.bool true) (.str "L") ∧
    (∀ (st : DrawingAttrState) (attr : String) (value : PyVal),
      value ≠ .none →
        (viewSetDrawingAttribute st attr value .none).fallback = st.fallback) := by
  refine ⟨fun st attr value layerName => rfl, by decide, ?_⟩
  intro st attr value hv
  simp [viewSetDrawingAttribute, setDrawingAttribute, hv]

/-- Witness for claim C10's amended theorem at concrete inputs. -/
theorem claim_C10_witness :
    viewSetDrawingAttribute stEmpty "x" (.bool false) (.str "M") =
        setDrawingAttribute stEmpty "x" (.str "M") (.bool false) ∧
    (viewSetDrawingAttribute stC10 "showGlyphFill" (.bool false) .none).fallback
      = stC10.fallback :=
  ⟨claim_C10_transposed_forwarding.1 stEmpty "x" (.bool false) (.str "M"),
   claim_C10_transposed_forwarding.2.2 stC10 "showGlyphFill" (.bool false)
     (by decide)⟩

/-! ### Scale clamping (GlyphLineWidget._calcScale and GlyphWidget.setScale) -/

/-- GlyphLineWidget._calcScale: the effective scale is pointSize/upm clamped
below at 0.01. -/
def calcScaleEffective (pointSize upm : ℚ) : ℚ :=
  let scale := pointSize / upm
  if scale < 1/100 then 1/100 else scale

/-- GlyphWidget.setScale: the requested scale is replaced by 0.01 only when
it is not positive. -/
def setScaleEffective (scale : ℚ) : ℚ :=
  if scale ≤ 0 then 1/100 else scale

/-- Counterexample to claim C4: in the single-glyph widget a requested ratio
of 5/1000 = 0.005 (point size 5 in a 1000-unit em) is at most 0.01 but the
effective scale stays 0.005 instead of the claimed max with 0.01. -/
theorem claim_C4_counterexample :
    setScaleEffective (5/1000) ≠ max (5/1000 : ℚ) (1/100) := by
  have h1 : setScaleEffective (5/1000) = 5/1000 := by
    unfold setScaleEffective
    norm_num
  have h2 : max (5/1000 : ℚ) (1/100) = 1/100 := max_eq_right (by norm_num)
  rw [h1, h2]
  norm_num

/-- Claim C4 (amended): the glyph-line widget's effective scale equals
max(pointSize/unitsPerEm, 0.01); the single-glyph widget clamps only
non-positive requested scales to 0.01 and keeps every positive requested
scale, even one at or below 0.01, unchanged. -/
theorem claim_C4_scale_clamp :
    (∀ pointSize upm : ℚ,
      calcScaleEffective pointSize upm = max (pointSize / upm) (1/100)) ∧
    (∀ s : ℚ, 0 < s → setScaleEffective s = s) ∧
    (∀ s : ℚ, s ≤ 0 → setScaleEffective s = 1/100) := by
  refine ⟨?_, ?_, ?_⟩
  · intro pointSize upm
    unfold calcScaleEffective
    rcases lt_or_le (pointSize / upm) (1/100) with h | h
    · simp only [if_pos h]
      exact (max_eq_right h.le).symm
    · simp only [if_neg (not_lt.mpr h)]
      exact (max_eq_left h).symm
  · intro s hs
    unfold setScaleEffective
    simp [not_le.mpr hs]
  · intro s hs
    unfold setScaleEffective
    simp [hs]

/-- Witness for claim C4's amended theorem at concrete inputs. -/
theorem claim_C4_witness :
    calcScaleEffective 150 1000 = max (150/1000 : ℚ) (1/100) ∧
    setScaleEffective (1/200) = 1/200 ∧
    setScaleEffective (-1) = 1/100 :=
  ⟨claim_C4_scale_clamp.1 150 1000,
   claim_C4_scale_clamp.2.1 (1/200) (by norm_num),
   claim_C4_scale_clamp.2.2 (-1) (by norm_num)⟩

/-! ### Kerning pass over glyph records
(GlyphLineView._setKerningInGlyphRecords).  The source iterates over the
records keeping the previous glyph and font, and assigns the resolved value
to the preceding record's xAdvance whenever the current glyph has a non-null
font equal to the previous glyph's font. -/

/-- The loop body of _setKerningInGlyphRecords: prev is the record already
visited; when the head record's glyph has a non-null font equal to prev's,
prev's xAdvance is overwritten with the resolved kerning value. -/
def setKernGo (kerning : List ((String × String) × ℚ))
    (groups : List (String × List String)) (prev : GlyphRecord) :
    List GlyphRecord → List GlyphRecord
  | [] => [prev]
  | r :: rs =>
    if r.glyph.font ≠ none ∧ prev.glyph.font = r.glyph.font then
      { prev with xAdvance :=
          lookupKerningValue kerning groups prev.glyph.name r.glyph.name }
        :: setKernGo kerning groups r rs
    else
      prev :: setKernGo kerning groups r rs

/-- GlyphLineView._setKerningInGlyphRecords as a pure function on the record
list (the source mutates the list in place; each record is written at most
once, when its successor is visited). -/
def setKerningInGlyphRecords (kerning : List ((String × String) × ℚ))
    (groups : List (String × List String)) :
    List GlyphRecord → List GlyphRecord
  | [] => []
  | r :: rs => setKernGo kerning groups r rs

/-- The per-record effect of the kerning pass: a record followed by a record
whose glyph carries the same non-null font gets its xAdvance overwritten with
the resolved value; any other record is left unchanged. -/
def kernedRecord (kerning : List ((String × String) × ℚ))
    (groups : List (String × List String)) (r : GlyphRecord) :
    Option GlyphRecord → GlyphRecord
  | some next =>
    if next.glyph.font ≠ none ∧ r.glyph.font = next.glyph.font then
      { r with xAdvance :=
          lookupKerningValue kerning groups r.glyph.name next.glyph.name }
    else r
  | none => r

/-- Helper: the loop preserves length. -/
theorem setKernGo_length (kerning : List ((String × String) × ℚ))
    (groups : List (String × List String)) :
    ∀ (rs : List GlyphRecord) (prev : GlyphRecord),
      (setKernGo kerning groups prev rs).length = rs.length + 1 := by
  intro rs
  induction rs with
  | nil => intro prev; rfl
  | cons r rs ih =>
    intro prev
    unfold setKernGo
    split <;> simp [ih]

/-- Helper: index-wise characterization of the loop. -/
theorem setKernGo_getElem (kerning : List ((String × String) × ℚ))
    (groups : List (String × List String)) :
    ∀ (rs : List GlyphRecord) (prev : GlyphRecord) (i : Nat),
      (setKernGo kerning groups prev rs)[i]? =
        ((prev :: rs)[i]?).map (fun r => kernedRecord kerning groups r rs[i]?) := by
  intro rs
  induction rs with
  | nil =>
    intro prev i
    match i with
    | 0 => rfl
    | j + 1 => rfl
  | cons r rs ih =>
    intro prev i
    match i with
    | 0 =>
      unfold setKernGo
      by_cases h : r.glyph.font ≠ none ∧ prev.glyph.font = r.glyph.font
      · rw [if_pos h]
        simp [kernedRecord, h]
      · rw [if_neg h]
        simp [kernedRecord, h]
    | j + 1 =>
      unfold setKernGo
      split <;> simpa using ih r j

/-- Helper: the kerning pass preserves length and rewrites each record
index-wise by kernedRecord applied to its successor. -/
theorem setKerningInGlyphRecords_getElem
    (kerning : List ((String × String) × ℚ))
    (groups : List (String × List String)) (rs : List GlyphRecord) (i : Nat) :
    (setKerningInGlyphRecords kerning groups rs).length = rs.length ∧
    (setKerningInGlyphRecords kerning groups rs)[i]? =
      (rs[i]?).map (fun r => kernedRecord kerning groups r rs[i+1]?) := by
  constructor
  · cases rs with
    | nil => rfl
    | cons r tl => simp [setKerningInGlyphRecords, setKernGo_length]
  · cases rs with
    | nil => rfl
    | cons r tl =>
      simpa [setKerningInGlyphRecords] using setKernGo_getElem kerning groups tl r i

/-- Claim C5: the kerning pass writes the resolved value for each adjacent
pair into the preceding record's xAdvance, and only when both glyphs carry
the same non-null font; every record keeps its position and all its other
fields (the pass never reorders). -/
theorem claim_C5_kerning_write (kerning : List ((String × String) × ℚ))
    (groups : List (String × List String)) (rs : List GlyphRecord) (i : Nat) :
    (setKerningInGlyphRecords kerning groups rs).length = rs.length ∧
    (setKerningInGlyphRecords kerning groups rs)[i]? =
      (rs[i]?).map (fun r => kernedRecord kerning groups r rs[i+1]?) :=
  setKerningInGlyphRecords_getElem kerning groups rs i

/-- A font shared by the two records of the C8 counterexample. -/
def fontC8 : FontObj := ⟨1, some 1000, some (-250), none, none⟩

/-- First record of the C8 counterexample: it enters the pass already holding
xAdvance = 7 (as a record populated by a shaping engine would). -/
def recC8a : GlyphRecord := { glyph := ⟨1, "a", some fontC8⟩, xAdvance := 7 }

/-- Second record of the C8 counterexample, same font. -/
def recC8b : GlyphRecord := { glyph := ⟨2, "b", some fontC8⟩ }

/-- Counterexample to claim C8: with an empty kerning table (no entry at any
precedence level) the lookup returns 0, but the pass overwrites the
preceding record's held xAdvance of 7 with that 0 - the prior value is not
preserved. -/
theorem claim_C8_counterexample :
    lookupKerningValue [] [] "a" "b" = 0 ∧
    ((setKerningInGlyphRecords [] [] [recC8a, recC8b])[0]?).map
        (fun r => r.xAdvance) = some 0 ∧
    recC8a.xAdvance = 7 ∧ (7 : ℚ) ≠ 0 := by
  refine ⟨by decide, by decide, by decide, by decide⟩

/-- Claim C8 (amended): for an adjacent pair sharing a non-null identical
font whose kerning lookup finds no entry at any precedence level, the lookup
returns 0 and the pass assigns exactly that 0 to the preceding record's
xAdvance, overwriting whatever value the record held before the pass. -/
theorem claim_C8_zero_kern (kerning : List ((String × String) × ℚ))
    (groups : List (String × List String)) (rs : List GlyphRecord) (i : Nat)
    (r next : GlyphRecord) (hr : rs[i]? = some r) (hn : rs[i+1]? = some next)
    (hfont : next.glyph.font ≠ none ∧ r.glyph.font = next.glyph.font)
    (hmiss : firstMatch kerning
      (precedenceLevels groups r.glyph.name next.glyph.name) = none) :
    lookupKerningValue kerning groups r.glyph.name next.glyph.name = 0 ∧
    ((setKerningInGlyphRecords kerning groups rs)[i]?).map
        (fun s => s.xAdvance) = some 0 := by
  have hz : lookupKerningValue kerning groups r.glyph.name next.glyph.name = 0 := by
    rw [lookupKerningValue_eq_levels, hmiss]
    rfl
  refine ⟨hz, ?_⟩
  rw [(setKerningInGlyphRecords_getElem kerning groups rs i).2, hr, hn]
  simp [kernedRecord, hfont, hz]

/-- Witness for claim C8's amended theorem at the concrete input of the
counterexample. -/
theorem claim_C8_witness :
    lookupKerningValue [] [] "a" "b" = 0 ∧
    ((setKerningInGlyphRecords [] [] [recC8a, recC8b])[0]?).map
        (fun s => s.xAdvance) = some 0 := by
  have h := claim_C8_zero_kern [] [] [recC8a, recC8b] 0 recC8a recC8b
    (by decide) (by decide) (by decide) (by decide)
  exact h

/-! ### Right-to-left painting (GlyphLineWidget.paintRightToLeft).  The loop
is embedded as a state machine over (left, top, previousXA); for each record
it emits the stored hit-test rect, the optional line-wrap translation, the
placement translation that positions the glyph
(painter.translate(-w - xA + xP, yP), after the source's
"if xP: xP += previousXA" mutation), and the closing shift translation. -/

/-- The widget parameters read by paintRightToLeft. -/
structure RTLParams where
  widgetWidth : ℚ
  buffer : ℚ
  scale : ℚ
  upm : ℚ
  lineHeight : ℚ
  wrapLines : Bool
  verticalFlip : Bool
deriving DecidableEq

/-- The per-record observables of one iteration of the RTL paint loop. -/
structure RTLStep where
  rect : ℚ × ℚ × ℚ × ℚ
  transWrap : Option (ℚ × ℚ)
  transPlace : ℚ × ℚ
  transShift : ℚ × ℚ
deriving DecidableEq

/-- The RTL paint loop over the remaining records, carrying the running pen
state (left, top, previousXA) exactly as the source does. -/
def paintRTLGo (p : RTLParams) : ℚ → ℚ → ℚ → List GlyphRecord → List RTLStep
  | _, _, _, [] => []
  | left0, top0, previousXA, r :: rs =>
    let w := r.advanceWidth
    let h := r.advanceHeight
    let xP0 := r.xPlacement
    let yP := r.yPlacement
    let xA := r.xAdvance
    let yA := r.yAdvance
    let wrapTriple : ℚ × ℚ × Option (ℚ × ℚ) :=
      if p.wrapLines ∧ left0 - (w + xP0 + xA) * p.scale - p.buffer < 0 then
        (p.widgetWidth - p.buffer, top0 + p.upm * p.lineHeight * p.scale,
         some ((p.widgetWidth - p.buffer - left0) * (1 / p.scale),
               (if p.verticalFlip then 1 else -1) * p.upm * p.lineHeight))
      else (left0, top0, none)
    let left1 := wrapTriple.1
    let top1 := wrapTriple.2.1 - yP * p.scale
    let xP := if xP0 ≠ 0 then xP0 + previousXA else xP0
    { rect := (left1 + (-w + xP0 - xA) * p.scale, top1, (w + xA) * p.scale,
               p.upm * p.scale + (h + yA) * p.scale),
      transWrap := wrapTriple.2.2,
      transPlace := (-w - xA + xP, yP),
      transShift := (-xP, h + yA - yP) }
      :: paintRTLGo p (left1 - (w + xP + xA) * p.scale) top1 xA rs

/-- GlyphLineWidget.paintRightToLeft: start at the right buffer edge with the
line-height baseline offset and previousXA = 0. -/
def paintRightToLeft (p : RTLParams) (rs : List GlyphRecord) : List RTLStep :=
  paintRTLGo p (p.widgetWidth - p.buffer)
    (p.buffer + 1/2 * ((p.lineHeight - 1) * p.upm) * p.scale) 0 rs

/-- Helper: the placement translation of each record depends only on the
record, its index, and the previous record's xAdvance (the initial
previousXA for the first record). -/
theorem paintRTLGo_transPlace (p : RTLParams) :
    ∀ (rs : List GlyphRecord) (left top pxa : ℚ) (i : Nat),
      ((paintRTLGo p left top pxa rs)[i]?).map (fun s => s.transPlace) =
        (rs[i]?).map (fun r =>
          (-r.advanceWidth - r.xAdvance +
            (if r.xPlacement ≠ 0 then
              r.xPlacement +
                (if i = 0 then pxa else ((rs[i-1]?).map
                  (fun q => q.xAdvance)).getD 0)
             else 0),
           r.yPlacement)) := by
  intro rs
  induction rs with
  | nil => intro left top pxa i; simp [paintRTLGo]
  | cons r rs ih =>
    intro left top pxa i
    match i with
    | 0 =>
      simp only [paintRTLGo, List.getElem?_cons_zero, Option.map_some']
      by_cases hx : r.xPlacement = 0
      · simp [hx]
      · simp [hx]
    | j + 1 =>
      simp only [paintRTLGo, List.getElem?_cons_succ]
      rw [ih]
      cases j with
      | zero => simp
      | succ m => simp

/-- The concrete RTL parameters of the C3 counterexample: scale 1, no
wrapping. -/
def pC3 : RTLParams :=
  { widgetWidth := 1000, buffer := 15, scale := 1, upm := 1000,
    lineHeight := 1, wrapLines := false, verticalFlip := false }

/-- A glyph for the C3 records. -/
def gC3 : GlyphObj := ⟨3, "g", none⟩

/-- First C3 record: advance 100 and a kerning xAdvance of 5. -/
def recC3a : GlyphRecord := { glyph := gC3, advanceWidth := 100, xAdvance := 5 }

/-- Second C3 record: advance 100 and xPlacement 0. -/
def recC3b : GlyphRecord := { glyph := gC3, advanceWidth := 100 }

/-- Counterexample to claim C3: the second record has xPlacement 0, and its
placement translation is (-100, 0) - the previous record's x-advance of 5 is
not folded in (that would give (-95, 0)); the fold happens only under the
source's "if xP:" guard. -/
theorem claim_C3_counterexample :
    ((paintRightToLeft pC3 [recC3a, recC3b])[1]?).map
        (fun s => s.transPlace) = some ((-100 : ℚ), (0 : ℚ)) ∧
    (((-100 : ℚ), (0 : ℚ)) : ℚ × ℚ) ≠
      (-recC3b.advanceWidth - recC3b.xAdvance + (recC3b.xPlacement +
        recC3a.xAdvance), recC3b.yPlacement) := by
  constructor
  · norm_num [paintRightToLeft, paintRTLGo, pC3, recC3a, recC3b, gC3]
  · norm_num [recC3a, recC3b, Prod.ext_iff]

/-- Claim C3 (amended): in the RTL paint loop the previous record's x-advance
is folded into the current record's placement offset only when the current
record's own xPlacement is non-zero; a record with zero xPlacement is
positioned with placement offset 0, with no contribution from the previous
record's x-advance. -/
theorem claim_C3_rtl_placement (p : RTLParams) (rs : List GlyphRecord)
    (i : Nat) :
    ((paintRightToLeft p rs)[i]?).map (fun s => s.transPlace) =
      (rs[i]?).map (fun r =>
        (-r.advanceWidth - r.xAdvance +
          (if r.xPlacement ≠ 0 then
            r.xPlacement +
              (if i = 0 then 0 else ((rs[i-1]?).map
                (fun q => q.xAdvance)).getD 0)
           else 0),
         r.yPlacement)) :=
  paintRTLGo_transPlace p rs (p.widgetWidth - p.buffer)
    (p.buffer + 1/2 * ((p.lineHeight - 1) * p.upm) * p.scale) 0 i

/-! ### Content size (GlyphLineWidget.sizeHint).  The widget's computed
width/height before the host QSize conversion, in both the non-wrapping and
wrapping branches. -/

/-- The widget parameters read by sizeHint: _buffer, _scale, _pointSize
(already recomputed by _calcScale), _lineHeight, _wrapLines, and the width
of the parent viewport consulted by the wrapping branch. -/
structure SizeHintParams where
  buffer : ℚ
  scale : ℚ
  pointSize : ℚ
  lineHeight : ℚ
  wrapLines : Bool
  visibleWidth : ℚ
deriving DecidableEq

/-- GlyphLineWidget.sizeHint: (width, height) as computed by the source. -/
def sizeHintSize (p : SizeHintParams) (rs : List GlyphRecord) : ℚ × ℚ :=
  if p.wrapLines then
    let res := rs.foldl (fun acc r =>
      let gWidth := (r.advanceWidth + r.xPlacement + r.xAdvance) * p.scale
      let step : ℚ × ℚ :=
        if acc.1 + gWidth > p.visibleWidth then (p.buffer * 2 + gWidth, acc.2.2 + 1)
        else (acc.1 + gWidth, acc.2.2)
      (step.1, max step.1 acc.2.1, step.2))
      (p.buffer * 2, p.buffer * 2, (1 : ℚ))
    (res.2.1, p.buffer * 2 + res.2.2 * p.pointSize * p.lineHeight)
  else
    (rs.foldl (fun acc r =>
        acc + (r.advanceWidth + r.xPlacement + r.xAdvance) * p.scale)
      (p.buffer * 2),
     p.buffer * 2 + p.pointSize * p.lineHeight)

/-- Helper: accumulating a sum with foldl equals the initial value plus the
list sum. -/
theorem foldl_add_eq_sum (f : GlyphRecord → ℚ) :
    ∀ (rs : List GlyphRecord) (a : ℚ),
      rs.foldl (fun acc r => acc + f r) a = a + (rs.map f).sum := by
  intro rs
  induction rs with
  | nil => intro a; simp
  | cons r rs ih =>
    intro a
    simp [List.foldl_cons, ih, add_assoc]

/-- A fixed-width record of advance 500 for the concrete C7 instance. -/
def recC7 : GlyphRecord := { glyph := ⟨7, "w", none⟩, advanceWidth := 500 }

/-- Claim C7: with wrapping disabled the computed content width is twice the
buffer margin plus the sum of (advanceWidth + xPlacement + xAdvance) * scale
over the records; in particular three records of advance 500 at scale
3/20 = 0.15 (point size 150 in a 1000-unit em) give 3*500*0.15 plus twice
the buffer. -/
theorem claim_C7_content_width (buffer scale pointSize lineHeight
    visibleWidth : ℚ) (rs : List GlyphRecord) :
    (sizeHintSize ⟨buffer, scale, pointSize, lineHeight, false, visibleWidth⟩
        rs).1 =
      buffer * 2 + (rs.map (fun r =>
        (r.advanceWidth + r.xPlacement + r.xAdvance) * scale)).sum ∧
    (sizeHintSize ⟨buffer, 3/20, pointSize, lineHeight, false, visibleWidth⟩
        [recC7, recC7, recC7]).1 = 3 * 500 * (3/20) + buffer * 2 := by
  constructor
  · simp only [sizeHintSize, Bool.false_eq_true, if_false]
    exact foldl_add_eq_sum _ rs (buffer * 2)
  · simp only [sizeHintSize, Bool.false_eq_true, if_false]
    rw [foldl_add_eq_sum]
    norm_num [recC7]
    ring

/-! ### Metric fallbacks (GlyphLineWidget.setGlyphRecords lines 98-113 and
GlyphWidget.setGlyph lines 90-108).  The line widget collects the upm values
and descenders of the records' fonts and keeps its current values when none
are found; the glyph widget substitutes fixed defaults field by field only
when a font is present. -/

/-- The metric update performed by GlyphLineWidget.setGlyphRecords: starting
from the widget's current (_upm, _descender), take the max of the reported
unitsPerEm values and the min of the reported descenders, keeping the
current value when a list is empty. -/
def lineViewMetricsUpdate (rs : List GlyphRecord) (upm0 descender0 : ℚ) :
    ℚ × ℚ :=
  let upms := rs.filterMap (fun r => r.glyph.font.bind (fun f => f.unitsPerEm))
  let descenders :=
    rs.filterMap (fun r => r.glyph.font.bind (fun f => f.descender))
  (match upms with
   | [] => upm0
   | x :: xs => xs.foldl max x,
   match descenders with
   | [] => descender0
   | x :: xs => xs.foldl min x)

/-- The cached vertical metrics of a GlyphWidget. -/
structure GlyphViewMetrics where
  unitsPerEm : ℚ
  descender : ℚ
  ascender : ℚ
  capHeight : ℚ
deriving DecidableEq

/-- GlyphWidget.setGlyph's metric update: fields are refreshed only when the
glyph is present and has a font; each None info field gets its fixed
substitute (1000, -250, upm + descender, ascender). -/
def setGlyphMetrics (g : Option GlyphObj) (m : GlyphViewMetrics) :
    GlyphViewMetrics :=
  match g with
  | none => m
  | some glyph =>
    match glyph.font with
    | none => m
    | some font =>
      let upm := font.unitsPerEm.getD 1000
      let desc := font.descender.getD (-250)
      let asc := font.ascender.getD (upm + desc)
      let cap := font.capHeight.getD asc
      ⟨upm, desc, asc, cap⟩

/-- A font reporting unitsPerEm 2048 and descender -500. -/
def fontC9 : FontObj := ⟨9, some 2048, some (-500), none, none⟩

/-- A record whose glyph belongs to fontC9. -/
def recC9 : GlyphRecord := { glyph := ⟨9, "big", some fontC9⟩ }

/-- A record whose glyph has no font at all. -/
def recC9nf : GlyphRecord := { glyph := ⟨10, "nf", none⟩ }

/-- Counterexample to claim C9: a widget that starts at the defaults
(1000, -250), displays fontC9 once (metrics become (2048, -500)), and is
then given a record whose glyph has no font keeps (2048, -500) - absent
metrics do not reinstate the fixed defaults. -/
theorem claim_C9_counterexample :
    lineViewMetricsUpdate [recC9] 1000 (-250) = (2048, -500) ∧
    lineViewMetricsUpdate [recC9nf] 2048 (-500) = (2048, -500) ∧
    (((2048 : ℚ), (-500 : ℚ)) : ℚ × ℚ) ≠ ((1000 : ℚ), (-250 : ℚ)) := by
  refine ⟨rfl, rfl, by norm_num [Prod.ext_iff]⟩

/-- Claim C9 (amended): when no record supplies a unitsPerEm (resp.
descender) the line widget keeps its current value - which is the fixed
default 1000 (resp. -250) only on a freshly initialized widget; the
single-glyph widget substitutes 1000 and -250 when a font is present whose
info reports None for those fields, while a glyph with no font leaves all
previous metrics in place. -/
theorem claim_C9_metric_defaults (rs : List GlyphRecord) (upm0 descender0 : ℚ)
    (g : GlyphObj) (f : FontObj) (m : GlyphViewMetrics)
    (hupm : rs.filterMap (fun r => r.glyph.font.bind
      (fun fo => fo.unitsPerEm)) = [])
    (hdesc : rs.filterMap (fun r => r.glyph.font.bind
      (fun fo => fo.descender)) = [])
    (hgf : g.font = some f) (hfu : f.unitsPerEm = none)
    (hfd : f.descender = none) (gnf : GlyphObj) (hnf : gnf.font = none) :
    lineViewMetricsUpdate rs upm0 descender0 = (upm0, descender0) ∧
    (setGlyphMetrics (some g) m).unitsPerEm = 1000 ∧
    (setGlyphMetrics (some g) m).descender = -250 ∧
    setGlyphMetrics (some gnf) m = m := by
  refine ⟨?_, ?_, ?_, ?_⟩
  · unfold lineViewMetricsUpdate
    rw [hupm, hdesc]
  · simp [setGlyphMetrics, hgf, hfu]
  · simp [setGlyphMetrics, hgf, hfd]
  · simp [setGlyphMetrics, hnf]

/-- A font with no reported metrics, for the C9 witness. -/
def fontC9none : FontObj := ⟨11, none, none, none, none⟩

/-- Witness for claim C9's amended theorem at concrete inputs. -/
theorem claim_C9_witness :
    lineViewMetricsUpdate [recC9nf] 2048 (-500) = (2048, -500) ∧
    (setGlyphMetrics (some ⟨12, "g", some fontC9none⟩)
        ⟨2048, -500, 1548, 1548⟩).unitsPerEm = 1000 ∧
    (setGlyphMetrics (some ⟨12, "g", some fontC9none⟩)
        ⟨2048, -500, 1548, 1548⟩).descender = -250 ∧
    setGlyphMetrics (some ⟨10, "nf", none⟩) ⟨2048, -500, 1548, 1548⟩ =
      ⟨2048, -500, 1548, 1548⟩ :=
  claim_C9_metric_defaults [recC9nf] 2048 (-500) ⟨12, "g", some fontC9none⟩
    fontC9none ⟨2048, -500, 1548, 1548⟩ rfl rfl rfl rfl rfl ⟨10, "nf", none⟩ rfl

/-! ### Observer subscriptions (GlyphLineView._subscribeToGlyphs,
_unsubscribeFromGlyphs, setGlyphRecords).  The source walks the records with
two Python sets (handledGlyphs, handledFonts), registering one Glyph.Changed
observer per new glyph and one Info.Changed observer (plus one
Kerning.Changed observer when applyKerning) per new non-null font.  The sets
are modelled as lists with membership tests. -/

/-- The traversal of _subscribeToGlyphs: returns the glyph observers and the
font observers registered, in registration order. -/
def subscribeLoop : List GlyphRecord → List GlyphObj → List FontObj →
    List GlyphObj × List FontObj
  | [], _, _ => ([], [])
  | r :: rs, handledGlyphs, handledFonts =>
    if r.glyph ∈ handledGlyphs then subscribeLoop rs handledGlyphs handledFonts
    else
      match r.glyph.font with
      | none =>
        let res := subscribeLoop rs (r.glyph :: handledGlyphs) handledFonts
        (r.glyph :: res.1, res.2)
      | some font =>
        if font ∈ handledFonts then
          let res := subscribeLoop rs (r.glyph :: handledGlyphs) handledFonts
          (r.glyph :: res.1, res.2)
        else
          let res := subscribeLoop rs (r.glyph :: handledGlyphs)
            (font :: handledFonts)
          (r.glyph :: res.1, font :: res.2)

/-- The traversal of _unsubscribeFromGlyphs: the same walk over the widget's
current records, collecting the observers removed (removeObserver calls), in
removal order. -/
def unsubscribeLoop : List GlyphRecord → List GlyphObj → List FontObj →
    List GlyphObj × List FontObj
  | [], _, _ => ([], [])
  | r :: rs, handledGlyphs, handledFonts =>
    if r.glyph ∈ handledGlyphs then
      unsubscribeLoop rs handledGlyphs handledFonts
    else
      match r.glyph.font with
      | none =>
        let res := unsubscribeLoop rs (r.glyph :: handledGlyphs) handledFonts
        (r.glyph :: res.1, res.2)
      | some font =>
        if font ∈ handledFonts then
          let res := unsubscribeLoop rs (r.glyph :: handledGlyphs) handledFonts
          (r.glyph :: res.1, res.2)
        else
          let res := unsubscribeLoop rs (r.glyph :: handledGlyphs)
            (font :: handledFonts)
          (r.glyph :: res.1, font :: res.2)

/-- Helper: subscription and unsubscription perform the same traversal, so
they compute the same observer lists. -/
theorem unsubscribeLoop_eq_subscribeLoop :
    ∀ (rs : List GlyphRecord) (hg : List GlyphObj) (hf : List FontObj),
      unsubscribeLoop rs hg hf = subscribeLoop rs hg hf := by
  intro rs
  induction rs with
  | nil => intro hg hf; rfl
  | cons r rs ih =>
    intro hg hf
    by_cases hmem : r.glyph ∈ hg
    · simp [unsubscribeLoop, subscribeLoop, hmem, ih]
    · rcases hfo : r.glyph.font with _ | f0
      · simp [unsubscribeLoop, subscribeLoop, hmem, hfo, ih]
      · by_cases hfm : f0 ∈ hf <;>
          simp [unsubscribeLoop, subscribeLoop, hmem, hfo, hfm, ih]

/-- Helper: a glyph receives an observer exactly when it was not already
handled and occurs among the records. -/
theorem subscribeLoop_fst_mem :
    ∀ (rs : List GlyphRecord) (hg : List GlyphObj) (hf : List FontObj)
      (g : GlyphObj),
      g ∈ (subscribeLoop rs hg hf).1 ↔
        g ∉ hg ∧ ∃ r ∈ rs, r.glyph = g := by
  intro rs
  induction rs with
  | nil => intro hg hf g; simp [subscribeLoop]
  | cons r rs ih =>
    intro hg hf g
    by_cases hmem : r.glyph ∈ hg
    · rw [show (subscribeLoop (r :: rs) hg hf) = subscribeLoop rs hg hf by
        simp [subscribeLoop, hmem]]
      rw [ih]
      constructor
      · rintro ⟨h1, r', hr', he⟩
        exact ⟨h1, r', List.mem_cons_of_mem _ hr', he⟩
      · rintro ⟨h1, r', hr', he⟩
        rcases List.mem_cons.mp hr' with h2 | h3
        · subst h2
          exact absurd (he ▸ hmem) h1
        · exact ⟨h1, r', h3, he⟩
    · have key : ∀ hf2 : List FontObj,
          g ∈ r.glyph :: (subscribeLoop rs (r.glyph :: hg) hf2).1 ↔
            g ∉ hg ∧ ∃ r' ∈ r :: rs, r'.glyph = g := by
        intro hf2
        rw [List.mem_cons, ih (r.glyph :: hg) hf2 g]
        constructor
        · rintro (hgl | ⟨hng, r', hr', he⟩)
          · subst hgl
            exact ⟨hmem, r, List.mem_cons_self r rs, rfl⟩
          · exact ⟨fun hh => hng (List.mem_cons_of_mem _ hh), r',
              List.mem_cons_of_mem _ hr', he⟩
        · rintro ⟨h1, r', hr', he⟩
          by_cases hgl : g = r.glyph
          · exact Or.inl hgl
          · refine Or.inr ⟨?_, ?_⟩
            · intro hh
              rcases List.mem_cons.mp hh with h2 | h3
              · exact hgl h2
              · exact h1 h3
            · rcases List.mem_cons.mp hr' with h2 | h3
              · subst h2
                exact absurd he.symm hgl
              · exact ⟨r', h3, he⟩
      rcases hfo : r.glyph.font with _ | f0
      · rw [show (subscribeLoop (r :: rs) hg hf).1 =
            r.glyph :: (subscribeLoop rs (r.glyph :: hg) hf).1 by
          simp [subscribeLoop, hmem, hfo]]
        exact key hf
      · by_cases hfm : f0 ∈ hf
        · rw [show (subscribeLoop (r :: rs) hg hf).1 =
              r.glyph :: (subscribeLoop rs (r.glyph :: hg) hf).1 by
            simp [subscribeLoop, hmem, hfo, hfm]]
          exact key hf
        · rw [show (subscribeLoop (r :: rs) hg hf).1 =
              r.glyph :: (subscribeLoop rs (r.glyph :: hg) (f0 :: hf)).1 by
            simp [subscribeLoop, hmem, hfo, hfm]]
          exact key (f0 :: hf)

/-- Helper: a font receives an observer exactly when it was not already
handled and some record carries a not-yet-handled glyph owned by it. -/
theorem subscribeLoop_snd_mem :
    ∀ (rs : List GlyphRecord) (hg : List GlyphObj) (hf : List FontObj)
      (f : FontObj),
      f ∈ (subscribeLoop rs hg hf).2 ↔
        f ∉ hf ∧ ∃ r ∈ rs, r.glyph ∉ hg ∧ r.glyph.font = some f := by
  intro rs
  induction rs with
  | nil => intro hg hf f; simp [subscribeLoop]
  | cons r rs ih =>
    intro hg hf f
    by_cases hmem : r.glyph ∈ hg
    · rw [show (subscribeLoop (r :: rs) hg hf) = subscribeLoop rs hg hf by
        simp [subscribeLoop, hmem]]
      rw [ih]
      constructor
      · rintro ⟨h1, r', hr', hng, hfo2⟩
        exact ⟨h1, r', List.mem_cons_of_mem _ hr', hng, hfo2⟩
      · rintro ⟨h1, r', hr', hng, hfo2⟩
        rcases List.mem_cons.mp hr' with h2 | h3
        · subst h2
          exact absurd hmem hng
        · exact ⟨h1, r', h3, hng, hfo2⟩
    · rcases hfo : r.glyph.font with _ | f0
      · rw [show (subscribeLoop (r :: rs) hg hf).2 =
            (subscribeLoop rs (r.glyph :: hg) hf).2 by
          simp [subscribeLoop, hmem, hfo]]
        rw [ih]
        constructor
        · rintro ⟨h1, r', hr', hng, hfo2⟩
          exact ⟨h1, r', List.mem_cons_of_mem _ hr',
            fun hh => hng (List.mem_cons_of_mem _ hh), hfo2⟩
        · rintro ⟨h1, r', hr', hng, hfo2⟩
          rcases List.mem_cons.mp hr' with h2 | h3
          · subst h2
            rw [hfo] at hfo2
            cases hfo2
          · refine ⟨h1, r', h3, ?_, hfo2⟩
            intro hh
            rcases List.mem_cons.mp hh with h4 | h5
            · rw [h4, hfo] at hfo2
              cases hfo2
            · exact hng h5
      · by_cases hfm : f0 ∈ hf
        · rw [show (subscribeLoop (r :: rs) hg hf).2 =
              (subscribeLoop rs (r.glyph :: hg) hf).2 by
            simp [subscribeLoop, hmem, hfo, hfm]]
          rw [ih]
          constructor
          · rintro ⟨h1, r', hr', hng, hfo2⟩
            exact ⟨h1, r', List.mem_cons_of_mem _ hr',
              fun hh => hng (List.mem_cons_of_mem _ hh), hfo2⟩
          · rintro ⟨h1, r', hr', hng, hfo2⟩
            rcases List.mem_cons.mp hr' with h2 | h3
            · subst h2
              rw [hfo] at hfo2
              cases hfo2
              exact absurd hfm h1
            · refine ⟨h1, r', h3, ?_, hfo2⟩
              intro hh
              rcases List.mem_cons.mp hh with h4 | h5
              · rw [h4, hfo] at hfo2
                cases hfo2
                exact absurd hfm h1
              · exact hng h5
        · rw [show (subscribeLoop (r :: rs) hg hf).2 =
              f0 :: (subscribeLoop rs (r.glyph :: hg) (f0 :: hf)).2 by
            simp [subscribeLoop, hmem, hfo, hfm]]
          rw [List.mem_cons, ih]
          constructor
          · rintro (hq | ⟨h1, r', hr', hng, hfo2⟩)
            · subst hq
              exact ⟨hfm, r, List.mem_cons_self r rs, hmem, hfo⟩
            · exact ⟨fun hh => h1 (List.mem_cons_of_mem _ hh), r',
                List.mem_cons_of_mem _ hr',
                fun hh => hng (List.mem_cons_of_mem _ hh), hfo2⟩
          · rintro ⟨h1, r', hr', hng, hfo2⟩
            by_cases hq : f = f0
            · exact Or.inl hq
            · refine Or.inr ⟨?_, ?_⟩
              · intro hh
                rcases List.mem_cons.mp hh with h4 | h5
                · exact hq h4
                · exact h1 h5
              · rcases List.mem_cons.mp hr' with h2 | h3
                · subst h2
                  rw [hfo] at hfo2
                  cases hfo2
                  exact absurd rfl hq
                · refine ⟨r', h3, ?_, hfo2⟩
                  intro hh
                  rcases List.mem_cons.mp hh with h4 | h5
                  · rw [h4, hfo] at hfo2
                    cases hfo2
                    exact absurd rfl hq
                  · exact hng h5

/-- Helper: the glyph-observer list holds no duplicates (set-based
suppression). -/
theorem subscribeLoop_fst_nodup :
    ∀ (rs : List GlyphRecord) (hg : List GlyphObj) (hf : List FontObj),
      (subscribeLoop rs hg hf).1.Nodup := by
  intro rs
  induction rs with
  | nil => intro hg hf; simp [subscribeLoop]
  | cons r rs ih =>
    intro hg hf
    by_cases hmem : r.glyph ∈ hg
    · rw [show (subscribeLoop (r :: rs) hg hf) = subscribeLoop rs hg hf by
        simp [subscribeLoop, hmem]]
      exact ih hg hf
    · have key : ∀ hf2 : List FontObj,
          (r.glyph :: (subscribeLoop rs (r.glyph :: hg) hf2).1).Nodup := by
        intro hf2
        refine List.nodup_cons.mpr ⟨?_, ih (r.glyph :: hg) hf2⟩
        intro hin
        rw [subscribeLoop_fst_mem] at hin
        exact hin.1 (List.mem_cons_self _ _)
      rcases hfo : r.glyph.font with _ | f0
      · rw [show (subscribeLoop (r :: rs) hg hf).1 =
            r.glyph :: (subscribeLoop rs (r.glyph :: hg) hf).1 by
          simp [subscribeLoop, hmem, hfo]]
        exact key hf
      · by_cases hfm : f0 ∈ hf
        · rw [show (subscribeLoop (r :: rs) hg hf).1 =
              r.glyph :: (subscribeLoop rs (r.glyph :: hg) hf).1 by
            simp [subscribeLoop, hmem, hfo, hfm]]
          exact key hf
        · rw [show (subscribeLoop (r :: rs) hg hf).1 =
              r.glyph :: (subscribeLoop rs (r.glyph :: hg) (f0 :: hf)).1 by
            simp [subscribeLoop, hmem, hfo, hfm]]
          exact key (f0 :: hf)

/-- Helper: the font-observer list holds no duplicates. -/
theorem subscribeLoop_snd_nodup :
    ∀ (rs : List GlyphRecord) (hg : List GlyphObj) (hf : List FontObj),
      (subscribeLoop rs hg hf).2.Nodup := by
  intro rs
  induction rs with
  | nil => intro hg hf; simp [subscribeLoop]
  | cons r rs ih =>
    intro hg hf
    by_cases hmem : r.glyph ∈ hg
    · rw [show (subscribeLoop (r :: rs) hg hf) = subscribeLoop rs hg hf by
        simp [subscribeLoop, hmem]]
      exact ih hg hf
    · rcases hfo : r.glyph.font with _ | f0
      · rw [show (subscribeLoop (r :: rs) hg hf).2 =
            (subscribeLoop rs (r.glyph :: hg) hf).2 by
          simp [subscribeLoop, hmem, hfo]]
        exact ih _ _
      · by_cases hfm : f0 ∈ hf
        · rw [show (subscribeLoop (r :: rs) hg hf).2 =
              (subscribeLoop rs (r.glyph :: hg) hf).2 by
            simp [subscribeLoop, hmem, hfo, hfm]]
          exact ih _ _
        · rw [show (subscribeLoop (r :: rs) hg hf).2 =
              f0 :: (subscribeLoop rs (r.glyph :: hg) (f0 :: hf)).2 by
            simp [subscribeLoop, hmem, hfo, hfm]]
          refine List.nodup_cons.mpr ⟨?_, ih _ _⟩
          intro hin
          rw [subscribeLoop_snd_mem] at hin
          exact hin.1 (List.mem_cons_self _ _)

/-- Helper: the number of glyph observers equals the number of distinct
glyphs among the records. -/
theorem subscribeLoop_fst_length (rs : List GlyphRecord) :
    (subscribeLoop rs [] []).1.length =
      (rs.map (fun r => r.glyph)).toFinset.card := by
  rw [← List.toFinset_card_of_nodup (subscribeLoop_fst_nodup rs [] [])]
  congr 1
  ext g
  rw [List.mem_toFinset, List.mem_toFinset, subscribeLoop_fst_mem,
    List.mem_map]
  simp

/-- Helper: the number of font observers equals the number of distinct
non-null fonts among the records. -/
theorem subscribeLoop_snd_length (rs : List GlyphRecord) :
    (subscribeLoop rs [] []).2.length =
      (rs.filterMap (fun r => r.glyph.font)).toFinset.card := by
  rw [← List.toFinset_card_of_nodup (subscribeLoop_snd_nodup rs [] [])]
  congr 1
  ext f
  rw [List.mem_toFinset, List.mem_toFinset, subscribeLoop_snd_mem,
    List.mem_filterMap]
  simp

/-- Removal of each listed registration from the active-observer list
(removeObserver removes one registration per call). -/
def removeEach {α : Type} [DecidableEq α] (l : List α) (rem : List α) :
    List α :=
  rem.foldl (fun acc x => acc.erase x) l

/-- Helper: removing every element of a list from itself empties it. -/
theorem removeEach_self {α : Type} [DecidableEq α] :
    ∀ l : List α, removeEach l l = [] := by
  intro l
  induction l with
  | nil => rfl
  | cons a t ih =>
    show List.foldl (fun acc x => acc.erase x) ((a :: t).erase a) t = []
    rw [List.erase_cons_head]
    exact ih

/-- The observer-related state of a GlyphLineView: the applyKerning flag, the
widget's current records, and the active observer registrations (glyph
observers, font-info observers, kerning observers). -/
structure LineViewState where
  applyKerning : Bool
  records : List GlyphRecord
  glyphObs : List GlyphObj
  fontObs : List FontObj
  kernObs : List FontObj
deriving DecidableEq

/-- GlyphLineView._subscribeToGlyphs: add observers for the given records. -/
def subscribeToGlyphs (st : LineViewState) (glyphRecords : List GlyphRecord) :
    LineViewState :=
  let res := subscribeLoop glyphRecords [] []
  { st with glyphObs := st.glyphObs ++ res.1,
            fontObs := st.fontObs ++ res.2,
            kernObs := st.kernObs ++ (if st.applyKerning then res.2 else []) }

/-- GlyphLineView._unsubscribeFromGlyphs: remove the observers computed by
the same traversal over the widget's current records. -/
def unsubscribeFromGlyphs (st : LineViewState) : LineViewState :=
  let res := unsubscribeLoop st.records [] []
  { st with glyphObs := removeEach st.glyphObs res.1,
            fontObs := removeEach st.fontObs res.2,
            kernObs := removeEach st.kernObs
              (if st.applyKerning then res.2 else []) }

/-- GlyphLineView.setGlyphRecords on an input that is already a record list
(no wrapping needed): unsubscribe from the old records, install the new
ones, then subscribe to them. -/
def setGlyphRecordsView (st : LineViewState)
    (newRecords : List GlyphRecord) : LineViewState :=
  let st1 := unsubscribeFromGlyphs st
  let st2 := { st1 with records := newRecords }
  subscribeToGlyphs st2 newRecords

/-- Claim C6: subscribing performs exactly one glyph observer per distinct
glyph (M) and one font-info observer per distinct non-null font (F),
duplicates suppressed; and on a view whose active observers are exactly
those of its current records, setGlyphRecords first removes every prior
registration (the unsubscribe step leaves no active observers) and then
subscribes to the new record set, ending with exactly the new set's
observers. -/
theorem claim_C6_subscriptions :
    (∀ rs : List GlyphRecord,
      (subscribeLoop rs [] []).1.length =
          (rs.map (fun r => r.glyph)).toFinset.card ∧
      (subscribeLoop rs [] []).2.length =
          (rs.filterMap (fun r => r.glyph.font)).toFinset.card) ∧
    (∀ (st : LineViewState) (newRecords : List GlyphRecord),
      st.glyphObs = (subscribeLoop st.records [] []).1 →
      st.fontObs = (subscribeLoop st.records [] []).2 →
      st.kernObs = (if st.applyKerning
        then (subscribeLoop st.records [] []).2 else []) →
      ((unsubscribeFromGlyphs st).glyphObs = [] ∧
       (unsubscribeFromGlyphs st).fontObs = [] ∧
       (unsubscribeFromGlyphs st).kernObs = []) ∧
      ((setGlyphRecordsView st newRecords).glyphObs =
          (subscribeLoop newRecords [] []).1 ∧
       (setGlyphRecordsView st newRecords).fontObs =
          (subscribeLoop newRecords [] []).2 ∧
       (setGlyphRecordsView st newRecords).records = newRecords)) := by
  constructor
  · intro rs
    exact ⟨subscribeLoop_fst_length rs, subscribeLoop_snd_length rs⟩
  · intro st newRecords hg hf hk
    have hunsub : (unsubscribeFromGlyphs st).glyphObs = [] ∧
        (unsubscribeFromGlyphs st).fontObs = [] ∧
        (unsubscribeFromGlyphs st).kernObs = [] := by
      refine ⟨?_, ?_, ?_⟩
      · show removeEach st.glyphObs (unsubscribeLoop st.records [] []).1 = []
        rw [unsubscribeLoop_eq_subscribeLoop, ← hg]
        exact removeEach_self st.glyphObs
      · show removeEach st.fontObs (unsubscribeLoop st.records [] []).2 = []
        rw [unsubscribeLoop_eq_subscribeLoop, ← hf]
        exact removeEach_self st.fontObs
      · show removeEach st.kernObs
            (if st.applyKerning then (unsubscribeLoop st.records [] []).2
             else []) = []
        rw [unsubscribeLoop_eq_subscribeLoop, ← hk]
        exact removeEach_self st.kernObs
    refine ⟨hunsub, ?_, ?_, rfl⟩
    · show (unsubscribeFromGlyphs st).glyphObs ++
          (subscribeLoop newRecords [] []).1 =
        (subscribeLoop newRecords [] []).1
      rw [hunsub.1]
      rfl
    · show (unsubscribeFromGlyphs st).fontObs ++
          (subscribeLoop newRecords [] []).2 =
        (subscribeLoop newRecords [] []).2
      rw [hunsub.2.1]
      rfl

/-- A font shared by the witness records. -/
def fontC6 : FontObj := ⟨5, none, none, none, none⟩

/-- First witness record (glyph 10). -/
def recC6a : GlyphRecord := { glyph := ⟨10, "w1", some fontC6⟩ }

/-- Second witness record (glyph 11, same font). -/
def recC6b : GlyphRecord := { glyph := ⟨11, "w2", some fontC6⟩ }

/-- The witness record set: three records, two distinct glyphs, one font. -/
def rsC6 : List GlyphRecord := [recC6a, recC6a, recC6b]

/-- A fresh view state with no records and no observers. -/
def stC6 : LineViewState :=
  { applyKerning := false, records := [], glyphObs := [], fontObs := [],
    kernObs := [] }

/-- Witness for claim C6 at a concrete state and record set: replacing the
(empty) record set with three records over two distinct glyphs and one font
leaves the observers of the new set, with exactly 2 glyph observers and 1
font observer. -/
theorem claim_C6_witness :
    (unsubscribeFromGlyphs stC6).glyphObs = [] ∧
    (setGlyphRecordsView stC6 rsC6).glyphObs =
        (subscribeLoop rsC6 [] []).1 ∧
    (subscribeLoop rsC6 [] []).1.length = 2 ∧
    (subscribeLoop rsC6 [] []).2.length = 1 := by
  have h := claim_C6_subscriptions.2 stC6 rsC6 rfl rfl rfl
  have hc := claim_C6_subscriptions.1 rsC6
  refine ⟨h.1.1, h.2.1, ?_, ?_⟩
  · rw [hc.1]
    decide
  · rw [hc.2]
    decide
